import Mathlib

/-!
Shallow embedding of the isometric tile engine (grid stacking, coordinate
transform, tactical overlays, picking) translated from the TypeScript
source: engine/grid.ts (refactored version), engine/coordinate-transformer.ts,
engine/tile.ts (refactored version), the tactical mode manager, the
configuration module, engine/constants.ts and engine/types.ts.
Numbers are modelled as Int (the code only ever computes integer values on
these paths) and the x-ray opacities as exact rationals.
-/

namespace IsoEngine

/-- View direction from engine/types.ts: North=0, East=1, South=2, West=3. -/
inductive Direction where
  | North
  | East
  | South
  | West
deriving DecidableEq, Repr

/-- Numeric value of a direction, as used when the code casts the enum to a number. -/
def Direction.toInt : Direction → Int
  | .North => 0
  | .East => 1
  | .South => 2
  | .West => 3

/-- The four constructor parameters of CoordinateTransformer (coordinate-transformer.ts). -/
structure CoordinateTransformer where
  width : Int
  height : Int
  column : Int
  row : Int
deriving DecidableEq, Repr

/-- getRenderCartCoords from coordinate-transformer.ts: logical grid (x, y)
to cartesian coordinates under the given view direction. -/
def CoordinateTransformer.getRenderCartCoords
    (t : CoordinateTransformer) (x y : Int) (direction : Direction) : Int × Int :=
  match direction with
  | .North => (x * t.width, y * t.height)
  | .East => (y * t.width, (t.column - 1 - x) * t.height)
  | .South => ((t.column - 1 - x) * t.width, (t.row - 1 - y) * t.height)
  | .West => ((t.row - 1 - y) * t.width, x * t.height)

-- Static grid constants from grid.ts (refactored version).
namespace Grid

def WIDTH : Int := 64

def HEIGHT : Int := 64

def COLUMN : Int := 10

def ROW : Int := 10

def OFFSET_X : Int := 512

def OFFSET_Y : Int := 288

def OFFSET_Z : Int := 32

def MAX_Z : Int := 8

end Grid

/-- GridConfig interface from the configuration module. -/
structure GridConfig where
  width : Int
  height : Int
  column : Int
  row : Int
  offsetX : Int
  offsetY : Int
  offsetZ : Int
  maxZ : Int
deriving DecidableEq, Repr

/-- DEFAULT_CONFIG from the configuration module. -/
def DEFAULT_CONFIG : GridConfig :=
  { width := 64, height := 64, column := 10, row := 10,
    offsetX := 512, offsetY := 288, offsetZ := 32, maxZ := 8 }

/-- A Partial GridConfig input: every field optional. -/
structure PartialGridConfig where
  width : Option Int := none
  height : Option Int := none
  column : Option Int := none
  row : Option Int := none
  offsetX : Option Int := none
  offsetY : Option Int := none
  offsetZ : Option Int := none
  maxZ : Option Int := none
deriving DecidableEq, Repr

/-- The object spread that merges the defaults with the supplied optional
fields at the start of validateConfig. -/
def mergeConfig (config : PartialGridConfig) : GridConfig :=
  { width := config.width.getD DEFAULT_CONFIG.width,
    height := config.height.getD DEFAULT_CONFIG.height,
    column := config.column.getD DEFAULT_CONFIG.column,
    row := config.row.getD DEFAULT_CONFIG.row,
    offsetX := config.offsetX.getD DEFAULT_CONFIG.offsetX,
    offsetY := config.offsetY.getD DEFAULT_CONFIG.offsetY,
    offsetZ := config.offsetZ.getD DEFAULT_CONFIG.offsetZ,
    maxZ := config.maxZ.getD DEFAULT_CONFIG.maxZ }

/-- validateConfig from the configuration module: merge with defaults, then
reset an invalid width/height pair, an invalid column/row pair, and an
out-of-range maxZ to their defaults. The three offsets are not checked. -/
def validateConfig (config : PartialGridConfig) : GridConfig :=
  let validated := mergeConfig config
  let validated :=
    if validated.width ≤ 0 ∨ validated.height ≤ 0 then
      { validated with width := DEFAULT_CONFIG.width, height := DEFAULT_CONFIG.height }
    else validated
  let validated :=
    if validated.column ≤ 0 ∨ validated.row ≤ 0 then
      { validated with column := DEFAULT_CONFIG.column, row := DEFAULT_CONFIG.row }
    else validated
  let validated :=
    if validated.maxZ < 0 ∨ validated.maxZ > 100 then
      { validated with maxZ := DEFAULT_CONFIG.maxZ }
    else validated
  validated

-- Constants block TACTICAL_MODE_2 from engine/constants.ts, as exact rationals.
namespace TACTICAL_MODE_2

def GHOST_ALPHA : ℚ := 2 / 10

def MIN_ALPHA : ℚ := 3 / 10

def ALPHA_INCREMENT : ℚ := 15 / 100

def MAX_ALPHA : ℚ := 7 / 10

end TACTICAL_MODE_2

/-- The opacity Tile.setTacticalMode2 assigns to an occupied tile when the
x-ray overlay is enabled: 1.0 for the top cube of its column, otherwise
min(MIN_ALPHA + z * ALPHA_INCREMENT, MAX_ALPHA). -/
def Tile.tacticalMode2Alpha (isTopCube : Bool) (z : Int) : ℚ :=
  if isTopCube then 1
  else min (TACTICAL_MODE_2.MIN_ALPHA + (z : ℚ) * TACTICAL_MODE_2.ALPHA_INCREMENT)
    TACTICAL_MODE_2.MAX_ALPHA

/-- The JavaScript remainder operator on integers (truncating division). -/
def jsRem (a b : Int) : Int := Int.tmod a b

/-- The frame index computed by Tile.applyDirectionFrame: stairs (tile id 2)
with a facing use (facing - view + 4) % 4, other tiles with a facing use
(facing + view) % 4, tiles without a facing use the view direction itself. -/
def Tile.applyDirectionFrame
    (tileId : Option Int) (tileDirection : Option Int) (viewDirection : Direction) : Int :=
  match tileDirection with
  | some dir =>
      if tileId = some 2 then
        jsRem (dir - viewDirection.toInt + 4) 4
      else
        jsRem (dir + viewDirection.toInt) 4
  | none => viewDirection.toInt

/-- The depth Tile.updateView assigns: cartX + cartY + OFFSET_Z * z, where
the cartesian pair is taken under the current view direction. -/
def Tile.updateViewDepth
    (t : CoordinateTransformer) (dir : Direction) (x y z : Int) : Int :=
  (t.getRenderCartCoords x y dir).1 + (t.getRenderCartCoords x y dir).2 + Grid.OFFSET_Z * z

/-- The depth Tile.setTile assigns on placement:
WIDTH * x + HEIGHT * y + OFFSET_Z * z, with the static, unrotated constants. -/
def Tile.setTileDepth (x y z : Int) : Int :=
  Grid.WIDTH * x + Grid.HEIGHT * y + Grid.OFFSET_Z * z

/-- The transformer a grid built with the default configuration uses. -/
def defaultTransformer : CoordinateTransformer :=
  { width := 64, height := 64, column := 10, row := 10 }

/-- C4: rotation formulas. For the default 10 by 10 grid with 64 by 64 cells,
project(5,5) gives (320,320) North, (320,256) East, (256,256) South and
(256,320) West; and in general East maps (x,y) to (y*width, (column-1-x)*height),
South to ((column-1-x)*width, (row-1-y)*height) and
West to ((row-1-y)*width, x*height). -/
theorem C4_rotation_formulas :
    defaultTransformer.getRenderCartCoords 5 5 .North = (320, 320)
    ∧ defaultTransformer.getRenderCartCoords 5 5 .East = (320, 256)
    ∧ defaultTransformer.getRenderCartCoords 5 5 .South = (256, 256)
    ∧ defaultTransformer.getRenderCartCoords 5 5 .West = (256, 320)
    ∧ (∀ t : CoordinateTransformer, ∀ x y : Int,
        t.getRenderCartCoords x y .East = (y * t.width, (t.column - 1 - x) * t.height)
        ∧ t.getRenderCartCoords x y .South
            = ((t.column - 1 - x) * t.width, (t.row - 1 - y) * t.height)
        ∧ t.getRenderCartCoords x y .West = ((t.row - 1 - y) * t.width, x * t.height)) := by
  refine ⟨by decide, by decide, by decide, by decide, ?_⟩
  intro t x y
  exact ⟨rfl, rfl, rfl⟩

/-- C5 counterexample: after rotating the view to East, placing a tile at
(0,0,0) via Tile.setTile gives depth 0, while the rotated cartesian position
of (0,0) is (0,576), so cartX + cartY + zStep * z = 576. The claim that the
sprite depth equals cartX + cartY + zStep * z after every positioning
operation therefore fails on the placement path. -/
theorem C5_counterexample :
    Tile.setTileDepth 0 0 0 = 0
    ∧ defaultTransformer.getRenderCartCoords 0 0 .East = (0, 576)
    ∧ Tile.setTileDepth 0 0 0 ≠ 0 + 576 + Grid.OFFSET_Z * 0
    ∧ Tile.setTileDepth 0 0 0 ≠ Tile.updateViewDepth defaultTransformer .East 0 0 0 := by
  refine ⟨rfl, by decide, by decide, by decide⟩

/-- C5 amended: rotation via updateView sets the depth to
cartX + cartY + zStep * z under the current view direction, while placement
via Tile.setTile sets the depth to width * x + height * y + zStep * z, the
North-view value of the same formula; the two agree exactly when the
current view is North. -/
theorem C5_depth_amended (x y z : Int) :
    Tile.updateViewDepth defaultTransformer .North x y z = x * 64 + y * 64 + 32 * z
    ∧ Tile.updateViewDepth defaultTransformer .East x y z = y * 64 + (10 - 1 - x) * 64 + 32 * z
    ∧ Tile.updateViewDepth defaultTransformer .South x y z
        = (10 - 1 - x) * 64 + (10 - 1 - y) * 64 + 32 * z
    ∧ Tile.updateViewDepth defaultTransformer .West x y z = (10 - 1 - y) * 64 + x * 64 + 32 * z
    ∧ Tile.setTileDepth x y z = Tile.updateViewDepth defaultTransformer .North x y z := by
  refine ⟨?_, ?_, ?_, ?_, ?_⟩ <;>
    simp [Tile.updateViewDepth, Tile.setTileDepth, CoordinateTransformer.getRenderCartCoords,
      defaultTransformer, Grid.OFFSET_Z, Grid.WIDTH, Grid.HEIGHT]
  ring

/-- C6 counterexample: validateConfig does not validate the three offsets,
so a supplied offsetZ of -1 survives (it is not positive and is not replaced
by the default), and a supplied maxZ of 0 also survives even though it is
not positive. -/
theorem C6_counterexample :
    (validateConfig { offsetZ := some (-1) }).offsetZ = -1
    ∧ ¬ (0 < (validateConfig { offsetZ := some (-1) }).offsetZ)
    ∧ (validateConfig { maxZ := some 0 }).maxZ = 0 := by
  refine ⟨by decide, by decide, by decide⟩

/-- C6 amended: validateConfig never fails and returns a configuration whose
tile width, tile height, column count and row count are positive and whose
maxZ lies in [0, 100]; an invalid width/height pair, an invalid column/row
pair and an out-of-range maxZ are replaced by the defaults for those fields,
while the three offsets are returned exactly as merged (unvalidated), and
maxZ = 0 is accepted. -/
theorem C6_config_amended (p : PartialGridConfig) :
    0 < (validateConfig p).width
    ∧ 0 < (validateConfig p).height
    ∧ 0 < (validateConfig p).column
    ∧ 0 < (validateConfig p).row
    ∧ 0 ≤ (validateConfig p).maxZ
    ∧ (validateConfig p).maxZ ≤ 100
    ∧ (validateConfig p).offsetX = (mergeConfig p).offsetX
    ∧ (validateConfig p).offsetY = (mergeConfig p).offsetY
    ∧ (validateConfig p).offsetZ = (mergeConfig p).offsetZ
    ∧ (validateConfig p).width
        = (if (mergeConfig p).width ≤ 0 ∨ (mergeConfig p).height ≤ 0 then
            DEFAULT_CONFIG.width else (mergeConfig p).width)
    ∧ (validateConfig p).height
        = (if (mergeConfig p).width ≤ 0 ∨ (mergeConfig p).height ≤ 0 then
            DEFAULT_CONFIG.height else (mergeConfig p).height)
    ∧ (validateConfig p).column
        = (if (mergeConfig p).column ≤ 0 ∨ (mergeConfig p).row ≤ 0 then
            DEFAULT_CONFIG.column else (mergeConfig p).column)
    ∧ (validateConfig p).row
        = (if (mergeConfig p).column ≤ 0 ∨ (mergeConfig p).row ≤ 0 then
            DEFAULT_CONFIG.row else (mergeConfig p).row)
    ∧ (validateConfig p).maxZ
        = (if (mergeConfig p).maxZ < 0 ∨ (mergeConfig p).maxZ > 100 then
            DEFAULT_CONFIG.maxZ else (mergeConfig p).maxZ) := by
  simp only [validateConfig]
  split_ifs <;> simp_all [DEFAULT_CONFIG]

/-- C7: x-ray opacity. When the overlay is enabled, the top cube of a column
gets opacity 1.0 and every other occupied tile gets
min(0.3 + 0.15 * z, 0.7); for every non-top tile at height z at least 0 the
result lies in [0.3, 0.7] and is non-decreasing in z. -/
theorem C7_xray_opacity (z w : Int) (hz : 0 ≤ z) (hzw : z ≤ w) :
    Tile.tacticalMode2Alpha true z = 1
    ∧ Tile.tacticalMode2Alpha false z
        = min ((3 : ℚ) / 10 + (z : ℚ) * (15 / 100)) (7 / 10)
    ∧ (3 : ℚ) / 10 ≤ Tile.tacticalMode2Alpha false z
    ∧ Tile.tacticalMode2Alpha false z ≤ 7 / 10
    ∧ Tile.tacticalMode2Alpha false z ≤ Tile.tacticalMode2Alpha false w := by
  have hzq : (0 : ℚ) ≤ (z : ℚ) := by exact_mod_cast hz
  have hzwq : (z : ℚ) ≤ (w : ℚ) := by exact_mod_cast hzw
  refine ⟨rfl, rfl, ?_, ?_, ?_⟩
  · simp only [Tile.tacticalMode2Alpha, TACTICAL_MODE_2.MIN_ALPHA,
      TACTICAL_MODE_2.ALPHA_INCREMENT, TACTICAL_MODE_2.MAX_ALPHA, if_neg Bool.false_ne_true]
    refine le_min ?_ (by norm_num)
    nlinarith
  · simp only [Tile.tacticalMode2Alpha, TACTICAL_MODE_2.MAX_ALPHA, if_neg Bool.false_ne_true]
    exact min_le_right _ _
  · simp only [Tile.tacticalMode2Alpha, TACTICAL_MODE_2.MIN_ALPHA,
      TACTICAL_MODE_2.ALPHA_INCREMENT, TACTICAL_MODE_2.MAX_ALPHA, if_neg Bool.false_ne_true]
    refine min_le_min ?_ le_rfl
    nlinarith

/-- C7 witness at z = 0, w = 2. -/
theorem C7_xray_opacity_witness :
    Tile.tacticalMode2Alpha true 0 = 1
    ∧ (3 : ℚ) / 10 ≤ Tile.tacticalMode2Alpha false 0
    ∧ Tile.tacticalMode2Alpha false 0 ≤ 7 / 10
    ∧ Tile.tacticalMode2Alpha false 0 ≤ Tile.tacticalMode2Alpha false 2 := by
  obtain ⟨h1, _, h3, h4, h5⟩ := C7_xray_opacity 0 2 (by norm_num) (by norm_num)
  exact ⟨h1, h3, h4, h5⟩

/-- C8: frame selection. For every facing in 0..3 and every view direction d,
a stair tile (kind 2) with a facing selects frame (facing - d + 4) mod 4, any
other kind with a facing selects (facing + d) mod 4, and a tile without a
facing selects d itself. -/
theorem C8_frame_selection (facing : Int) (d : Direction)
    (h0 : 0 ≤ facing) (h4 : facing < 4) :
    Tile.applyDirectionFrame (some 2) (some facing) d = (facing - d.toInt + 4) % 4
    ∧ (∀ k : Int, k ≠ 2 →
        Tile.applyDirectionFrame (some k) (some facing) d = (facing + d.toInt) % 4)
    ∧ (∀ k : Option Int, Tile.applyDirectionFrame k none d = d.toInt) := by
  refine ⟨?_, ?_, ?_⟩
  · cases d <;> interval_cases facing <;> decide
  · intro k hk
    have hne : ¬ (some k = some (2 : Int)) := by simpa using hk
    simp only [Tile.applyDirectionFrame, if_neg hne]
    cases d <;> interval_cases facing <;> decide
  · intro k
    rfl

/-- C8 witness at facing = 3, d = East. -/
theorem C8_frame_selection_witness :
    Tile.applyDirectionFrame (some 2) (some 3) .East = (3 - Direction.toInt .East + 4) % 4
    ∧ Tile.applyDirectionFrame (some 1) (some 3) .East = (3 + Direction.toInt .East) % 4
    ∧ Tile.applyDirectionFrame (some 1) none .East = Direction.toInt .East := by
  obtain ⟨h1, h2, h3⟩ := C8_frame_selection 3 .East (by norm_num) (by norm_num)
  exact ⟨h1, h2 1 (by norm_num), h3 (some 1)⟩

/-- TileSetter from engine/types.ts (refactored version): a bare tile id
number, or a record with id, optional z, optional object, optional direction. -/
inductive TileSetter where
  | num (id : Int)
  | obj (id : Int) (z : Option Int) (object : Option Int) (direction : Option Int)
deriving DecidableEq, Repr

/-- OptionalTileSetter = TileSetter or 0 or null; null is none, the literal 0
is TileSetter.num 0. The JavaScript truthiness test on it
(the check at the top of Grid.setTile and in Grid.setGrid) is true exactly
for null and the number 0. -/
def setterIsEmpty : Option TileSetter → Bool
  | none => true
  | some (.num n) => n == 0
  | some (.obj _ _ _ _) => false

/-- The tile id a setter carries (Grid.setTile computes it as the id field
of a record setter, or the number itself; the id field is required by the
TileSetter type, so its defensive fallback to 1 never fires). -/
def setterIdOf : Option TileSetter → Int
  | some (.obj id _ _ _) => id
  | some (.num n) => n
  | none => 0

/-- The per-level setter Grid.setTile forwards to Tile.set: a record setter
is rebuilt with the target level as its z while keeping object and
direction; a bare number is forwarded as is. -/
def setterAt (tile : Option TileSetter) (zz : Int) : Option TileSetter :=
  match tile with
  | some (.obj id _ object direction) => some (.obj id (some zz) object direction)
  | other => other

/-- The z a grid cell descriptor requests in Grid.setGrid: the z field of a
record setter (defaulting to 0), and 0 for a bare number. -/
def setterZ : Option TileSetter → Int
  | some (.obj _ z _ _) => z.getD 0
  | _ => 0

/-- The logical state of one Tile instance (tile.ts, refactored version):
its z field, tileId (null when unoccupied), tileDirection, attached object
and the isTopCube flag. -/
structure TileData where
  z : Int
  tileId : Option Int
  tileDirection : Option Int
  object : Option Int
  isTopCube : Bool
deriving DecidableEq, Repr

/-- The logical fields a freshly constructed Tile carries (the constructor
leaves tileId null; z defaults to 0; isTopCube starts true). -/
def Tile.init (z : Option Int) : TileData :=
  { z := z.getD 0, tileId := none, tileDirection := none, object := none, isTopCube := true }

/-- Tile.set from tile.ts: a falsy setter (null or the number 0) clears
tileId, tileDirection and object; a record setter overwrites z, direction,
id and object; a bare number overwrites id and clears the direction while
keeping z and object. isTopCube is never touched here. -/
def Tile.set (t : TileData) (setter : Option TileSetter) : TileData :=
  match setter with
  | none => { t with tileId := none, tileDirection := none, object := none }
  | some (.num n) =>
      if n = 0 then { t with tileId := none, tileDirection := none, object := none }
      else { t with tileDirection := none, tileId := some n }
  | some (.obj id z object direction) =>
      { t with z := z.getD 0, tileDirection := direction, tileId := some id, object := object }

/-- The 3D tile array tiles[z][y][x] of the grid, as a function from
coordinates to an optional tile; absent entries are none. -/
def GridState := Int → Int → Int → Option TileData

/-- The freshly constructed grid: every slot empty. -/
def emptyGrid : GridState := fun _ _ _ => none

/-- Grid.setTile from grid.ts (refactored version): out-of-bounds arguments
are silently ignored; an empty setter removes the cube at z and every cube
above it; otherwise missing cubes strictly below z are created (existing
ones preserved untouched), the cube at z is created or updated with the
given setter, and every cube strictly above z is removed. -/
def Grid.setTile (cfg : GridConfig) (st : GridState) (x y z : Int)
    (tile : Option TileSetter) : GridState :=
  if x < 0 ∨ x ≥ cfg.column ∨ y < 0 ∨ y ≥ cfg.row ∨ z < 0 ∨ z > cfg.maxZ then st
  else if setterIsEmpty tile then
    fun zz yy xx =>
      if yy = y ∧ xx = x ∧ z ≤ zz ∧ zz ≤ cfg.maxZ then none else st zz yy xx
  else if setterIdOf tile = 0 then st
  else
    fun zz yy xx =>
      if yy = y ∧ xx = x then
        if 0 ≤ zz ∧ zz < z then
          match st zz yy xx with
          | some d => some d
          | none => some (Tile.set (Tile.init (some zz)) (setterAt tile zz))
        else if zz = z then
          some (Tile.set ((st z y x).getD (Tile.init (some z))) (setterAt tile z))
        else if z < zz ∧ zz ≤ cfg.maxZ then none
        else st zz yy xx
      else st zz yy xx

/-- The clearing loop at the start of Grid.setGrid: every in-range slot is
removed. -/
def Grid.clearTiles (cfg : GridConfig) (st : GridState) : GridState :=
  fun zz yy xx =>
    if 0 ≤ zz ∧ zz ≤ cfg.maxZ ∧ 0 ≤ yy ∧ yy < cfg.row ∧ 0 ≤ xx ∧ xx < cfg.column then none
    else st zz yy xx

/-- The row-major list of in-range (y, x) cell coordinates, as iterated by
the nested loops of Grid.setGrid. -/
def cellOrder (cfg : GridConfig) : List (Int × Int) :=
  (List.range cfg.row.toNat).flatMap fun y =>
    (List.range cfg.column.toNat).map fun x => (Int.ofNat y, Int.ofNat x)

/-- Grid.setGrid from grid.ts (refactored version): clear every slot, then
for each cell of the 2D layout with a truthy descriptor, place it via
Grid.setTile at the z the descriptor requests. -/
def Grid.setGrid (cfg : GridConfig) (st : GridState)
    (tiles : Int → Int → Option TileSetter) : GridState :=
  (cellOrder cfg).foldl
    (fun acc p =>
      if setterIsEmpty (tiles p.1 p.2) then acc
      else Grid.setTile cfg acc p.2 p.1 (setterZ (tiles p.1 p.2)) (tiles p.1 p.2))
    (Grid.clearTiles cfg st)

/-- The topmost scan of Grid.getTile when no z is supplied: walk the levels
n, n-1, ..., 0 and return the first occupied slot. -/
def Grid.getTopAux (st : GridState) (y x : Int) : Nat → Option TileData
  | 0 => st 0 y x
  | n + 1 =>
      match st (Int.ofNat (n + 1)) y x with
      | some d => some d
      | none => Grid.getTopAux st y x n

/-- Grid.getTile from grid.ts (refactored version): null when x or y is out
of bounds; with a z, null when z is out of bounds and the slot content
otherwise; without a z, the topmost occupied slot of the column. -/
def Grid.getTile (cfg : GridConfig) (st : GridState) (x y : Int)
    (z : Option Int) : Option TileData :=
  if x < 0 ∨ x ≥ cfg.column ∨ y < 0 ∨ y ≥ cfg.row then none
  else
    match z with
    | some zv => if zv < 0 ∨ zv > cfg.maxZ then none else st zv y x
    | none => Grid.getTopAux st y x cfg.maxZ.toNat

/-- One grid mutation of the public stacking API. -/
inductive GridOp where
  | setTile (x y z : Int) (tile : Option TileSetter)
  | setGrid (tiles : Int → Int → Option TileSetter)

/-- Apply one mutation. -/
def applyOp (cfg : GridConfig) (st : GridState) : GridOp → GridState
  | .setTile x y z tile => Grid.setTile cfg st x y z tile
  | .setGrid tiles => Grid.setGrid cfg st tiles

/-- Apply a sequence of mutations in order, starting from the given state. -/
def applyOps (cfg : GridConfig) (st : GridState) (ops : List GridOp) : GridState :=
  ops.foldl (applyOp cfg) st

/-- C9: out-of-bounds atomicity. For every (x, y, z) violating
0 ≤ x < column, 0 ≤ y < row, 0 ≤ z ≤ maxZ, Grid.setTile returns the grid
unchanged for every setter, and Grid.getTile with that z returns null. -/
theorem C9_out_of_bounds (cfg : GridConfig) (st : GridState) (x y z : Int)
    (h : x < 0 ∨ x ≥ cfg.column ∨ y < 0 ∨ y ≥ cfg.row ∨ z < 0 ∨ z > cfg.maxZ) :
    (∀ tile, Grid.setTile cfg st x y z tile = st)
    ∧ Grid.getTile cfg st x y (some z) = none := by
  constructor
  · intro tile
    simp only [Grid.setTile, if_pos h]
  · unfold Grid.getTile
    by_cases hxy : x < 0 ∨ x ≥ cfg.column ∨ y < 0 ∨ y ≥ cfg.row
    · rw [if_pos hxy]
    · rw [if_neg hxy]
      have hz : z < 0 ∨ z > cfg.maxZ := by tauto
      show (if z < 0 ∨ z > cfg.maxZ then none else st z y x) = none
      rw [if_pos hz]

/-- C9 witness at x = -1 on the default configuration. -/
theorem C9_out_of_bounds_witness :
    Grid.setTile DEFAULT_CONFIG emptyGrid (-1) 0 0 (some (.num 1)) = emptyGrid
    ∧ Grid.getTile DEFAULT_CONFIG emptyGrid (-1) 0 (some 0) = none :=
  ⟨(C9_out_of_bounds DEFAULT_CONFIG emptyGrid (-1) 0 0 (by decide)).1 (some (.num 1)),
   (C9_out_of_bounds DEFAULT_CONFIG emptyGrid (-1) 0 0 (by decide)).2⟩

/-- Helper: applying a non-empty setter to any tile state yields the id the
setter carries. -/
theorem Tile.set_setterAt_tileId (tile : Option TileSetter)
    (hne : setterIsEmpty tile = false) (t0 : TileData) (zz : Int) :
    (Tile.set t0 (setterAt tile zz)).tileId = some (setterIdOf tile) := by
  match tile with
  | none => simp [setterIsEmpty] at hne
  | some (.num n) =>
      have hn : ¬ (n = 0) := by simpa [setterIsEmpty] using hne
      simp [setterAt, Tile.set, setterIdOf, if_neg hn]
  | some (.obj id z object direction) => rfl

/-- C10: placement preserves the slots below. For every in-bounds setTile
with a non-empty setter, a slot strictly below the target height that was
occupied keeps its tile data completely unchanged, and a slot strictly
below the target height that was empty is newly created with the id of the
placed tile. -/
theorem C10_placement_preserves_below (cfg : GridConfig) (st : GridState)
    (x y z w : Int) (s : TileSetter)
    (hb : ¬ (x < 0 ∨ x ≥ cfg.column ∨ y < 0 ∨ y ≥ cfg.row ∨ z < 0 ∨ z > cfg.maxZ))
    (hne : setterIsEmpty (some s) = false)
    (hid : ¬ (setterIdOf (some s) = 0))
    (hw0 : 0 ≤ w) (hwz : w < z) :
    (∀ d, st w y x = some d → Grid.setTile cfg st x y z (some s) w y x = some d)
    ∧ (st w y x = none →
        ∃ d, Grid.setTile cfg st x y z (some s) w y x = some d
          ∧ d.tileId = some (setterIdOf (some s))) := by
  have hne2 : ¬ (setterIsEmpty (some s) = true) := by simp [hne]
  unfold Grid.setTile
  rw [if_neg hb, if_neg hne2, if_neg hid]
  constructor
  · intro d hd
    show (if y = y ∧ x = x then _ else _) = some d
    rw [if_pos ⟨rfl, rfl⟩, if_pos ⟨hw0, hwz⟩, hd]
  · intro hd
    refine ⟨Tile.set (Tile.init (some w)) (setterAt (some s) w), ?_, ?_⟩
    · show (if y = y ∧ x = x then _ else _) = _
      rw [if_pos ⟨rfl, rfl⟩, if_pos ⟨hw0, hwz⟩, hd]
    · exact Tile.set_setterAt_tileId (some s) hne (Tile.init (some w)) w

/-- A small state for the C10 witness: one cube placed at (0, 0, 0). -/
def c10base : GridState := Grid.setTile DEFAULT_CONFIG emptyGrid 0 0 0 (some (.num 5))

/-- C10 witness: after stacking a cube of a different kind at height 2 on
that column, the ground slot still holds the original tile data. -/
theorem C10_placement_preserves_below_witness :
    c10base 0 0 0
      = some { z := 0, tileId := some 5, tileDirection := none, object := none, isTopCube := true }
    ∧ Grid.setTile DEFAULT_CONFIG c10base 0 0 2 (some (.num 7)) 0 0 0
      = some { z := 0, tileId := some 5, tileDirection := none, object := none, isTopCube := true } := by
  refine ⟨by decide, ?_⟩
  exact (C10_placement_preserves_below DEFAULT_CONFIG c10base 0 0 2 0 (.num 7)
    (by decide) (by decide) (by decide) (by decide) (by decide)).1 _ (by decide)

/-- The column contiguity invariant: an occupied slot at height z within the
configured height range has every lower non-negative height occupied too. -/
def Contiguous (cfg : GridConfig) (st : GridState) : Prop :=
  ∀ x y z w : Int, 0 ≤ w → w < z → z ≤ cfg.maxZ → st z y x ≠ none → st w y x ≠ none

/-- The freshly constructed grid is contiguous. -/
theorem emptyGrid_contiguous (cfg : GridConfig) : Contiguous cfg emptyGrid := by
  intro x y z w _ _ _ hocc
  exact absurd rfl hocc

/-- Grid.setTile preserves column contiguity. -/
theorem setTile_contiguous (cfg : GridConfig) (st : GridState) (x y z : Int)
    (tile : Option TileSetter) (h : Contiguous cfg st) :
    Contiguous cfg (Grid.setTile cfg st x y z tile) := by
  unfold Grid.setTile
  split_ifs with hb he hid
  · exact h
  · intro x0 y0 z0 w0 hw0 hwz hzm hocc
    dsimp only at hocc ⊢
    by_cases hcz : y0 = y ∧ x0 = x ∧ z ≤ z0 ∧ z0 ≤ cfg.maxZ
    · rw [if_pos hcz] at hocc
      exact absurd rfl hocc
    · rw [if_neg hcz] at hocc
      by_cases hcw : y0 = y ∧ x0 = x ∧ z ≤ w0 ∧ w0 ≤ cfg.maxZ
      · exact absurd ⟨hcw.1, hcw.2.1, by omega, hzm⟩ hcz
      · rw [if_neg hcw]
        exact h x0 y0 z0 w0 hw0 hwz hzm hocc
  · exact h
  · intro x0 y0 z0 w0 hw0 hwz hzm hocc
    dsimp only at hocc ⊢
    by_cases hcol : y0 = y ∧ x0 = x
    · rw [if_pos hcol] at hocc ⊢
      rcases lt_trichotomy z0 z with hlt | heq | hgt
      · rw [if_pos ⟨hw0, by omega⟩]
        cases st w0 y0 x0 <;> simp
      · rw [if_pos ⟨hw0, by omega⟩]
        cases st w0 y0 x0 <;> simp
      · rw [if_neg (by omega : ¬ (0 ≤ z0 ∧ z0 < z)), if_neg (by omega : ¬ z0 = z),
          if_pos ⟨hgt, hzm⟩] at hocc
        exact absurd rfl hocc
    · rw [if_neg hcol] at hocc ⊢
      exact h x0 y0 z0 w0 hw0 hwz hzm hocc

/-- The clearing loop of Grid.setGrid preserves column contiguity. -/
theorem clearTiles_contiguous (cfg : GridConfig) (st : GridState)
    (h : Contiguous cfg st) : Contiguous cfg (Grid.clearTiles cfg st) := by
  intro x0 y0 z0 w0 hw0 hwz hzm hocc
  unfold Grid.clearTiles at hocc ⊢
  by_cases hcz : 0 ≤ z0 ∧ z0 ≤ cfg.maxZ ∧ 0 ≤ y0 ∧ y0 < cfg.row ∧ 0 ≤ x0 ∧ x0 < cfg.column
  · rw [if_pos hcz] at hocc
    exact absurd rfl hocc
  · rw [if_neg hcz] at hocc
    have hcw : ¬ (0 ≤ w0 ∧ w0 ≤ cfg.maxZ ∧ 0 ≤ y0 ∧ y0 < cfg.row ∧ 0 ≤ x0 ∧ x0 < cfg.column) := by
      intro hc
      exact hcz ⟨by omega, hzm, hc.2.2⟩
    rw [if_neg hcw]
    exact h x0 y0 z0 w0 hw0 hwz hzm hocc

/-- Folding Grid.setTile steps over a list of cells preserves contiguity. -/
theorem foldl_setTile_contiguous (cfg : GridConfig)
    (tiles : Int → Int → Option TileSetter) :
    ∀ (l : List (Int × Int)) (acc : GridState), Contiguous cfg acc →
      Contiguous cfg (l.foldl
        (fun acc p =>
          if setterIsEmpty (tiles p.1 p.2) then acc
          else Grid.setTile cfg acc p.2 p.1 (setterZ (tiles p.1 p.2)) (tiles p.1 p.2)) acc) := by
  intro l
  induction l with
  | nil => intro acc hacc; exact hacc
  | cons p l ih =>
      intro acc hacc
      rw [List.foldl_cons]
      apply ih
      by_cases hse : setterIsEmpty (tiles p.1 p.2) = true
      · rw [if_pos hse]; exact hacc
      · rw [if_neg hse]; exact setTile_contiguous cfg acc p.2 p.1 _ _ hacc

/-- Grid.setGrid preserves column contiguity. -/
theorem setGrid_contiguous (cfg : GridConfig) (st : GridState)
    (tiles : Int → Int → Option TileSetter) (h : Contiguous cfg st) :
    Contiguous cfg (Grid.setGrid cfg st tiles) :=
  foldl_setTile_contiguous cfg tiles (cellOrder cfg) (Grid.clearTiles cfg st)
    (clearTiles_contiguous cfg st h)

/-- Every public stacking mutation preserves column contiguity. -/
theorem applyOp_contiguous (cfg : GridConfig) (st : GridState) (op : GridOp)
    (h : Contiguous cfg st) : Contiguous cfg (applyOp cfg st op) := by
  cases op with
  | setTile x y z tile => exact setTile_contiguous cfg st x y z tile h
  | setGrid tiles => exact setGrid_contiguous cfg st tiles h

/-- C1: column contiguity invariant. Starting from the freshly constructed
(empty) grid, after any sequence of Grid.setTile and Grid.setGrid calls,
every column satisfies: if the slot at height z is occupied then every slot
at a lower non-negative height is occupied too. Out-of-bounds calls are
filtered inside Grid.setTile itself, so the statement covers every argument
list, in particular all in-bounds ones. -/
theorem C1_stack_contiguity (cfg : GridConfig) (ops : List GridOp) :
    Contiguous cfg (applyOps cfg emptyGrid ops) := by
  unfold applyOps
  have hgen : ∀ (l : List GridOp) (st : GridState), Contiguous cfg st →
      Contiguous cfg (l.foldl (applyOp cfg) st) := by
    intro l
    induction l with
    | nil => intro st hst; exact hst
    | cons op l ih =>
        intro st hst
        rw [List.foldl_cons]
        exact ih _ (applyOp_contiguous cfg st op hst)
  exact hgen ops emptyGrid (emptyGrid_contiguous cfg)

/-- Well-formedness of grid slots: every stored tile has a non-null id.
This holds for every state reachable through the public mutations, because
a tile is only ever stored right after a successful Tile.set with a
non-empty setter. -/
def IdPresent (st : GridState) : Prop :=
  ∀ z y x d, st z y x = some d → d.tileId.isSome = true

/-- The empty grid is well-formed. -/
theorem emptyGrid_idPresent : IdPresent emptyGrid := by
  intro z y x d hd
  cases hd

/-- Grid.setTile preserves well-formedness of slot ids. -/
theorem setTile_idPresent (cfg : GridConfig) (st : GridState) (x y z : Int)
    (tile : Option TileSetter) (h : IdPresent st) :
    IdPresent (Grid.setTile cfg st x y z tile) := by
  unfold Grid.setTile
  split_ifs with hb he hid
  · exact h
  · intro z0 y0 x0 d hd
    dsimp only at hd
    by_cases hcz : y0 = y ∧ x0 = x ∧ z ≤ z0 ∧ z0 ≤ cfg.maxZ
    · rw [if_pos hcz] at hd; cases hd
    · rw [if_neg hcz] at hd; exact h z0 y0 x0 d hd
  · exact h
  · have hne : setterIsEmpty tile = false := by
      cases hse : setterIsEmpty tile
      · rfl
      · exact absurd hse he
    intro z0 y0 x0 d hd
    dsimp only at hd
    by_cases hcol : y0 = y ∧ x0 = x
    · rw [if_pos hcol] at hd
      by_cases h1 : 0 ≤ z0 ∧ z0 < z
      · rw [if_pos h1] at hd
        cases hsw : st z0 y0 x0 with
        | some d0 => rw [hsw] at hd; cases hd; exact h z0 y0 x0 _ hsw
        | none =>
            rw [hsw] at hd
            cases hd
            rw [Tile.set_setterAt_tileId tile hne]
            rfl
      · rw [if_neg h1] at hd
        by_cases h2 : z0 = z
        · rw [if_pos h2] at hd
          cases hd
          rw [Tile.set_setterAt_tileId tile hne]
          rfl
        · rw [if_neg h2] at hd
          by_cases h3 : z < z0 ∧ z0 ≤ cfg.maxZ
          · rw [if_pos h3] at hd; cases hd
          · rw [if_neg h3] at hd; exact h z0 y0 x0 d hd
    · rw [if_neg hcol] at hd
      exact h z0 y0 x0 d hd

/-- The clearing loop preserves well-formedness of slot ids. -/
theorem clearTiles_idPresent (cfg : GridConfig) (st : GridState)
    (h : IdPresent st) : IdPresent (Grid.clearTiles cfg st) := by
  intro z0 y0 x0 d hd
  unfold Grid.clearTiles at hd
  by_cases hcz : 0 ≤ z0 ∧ z0 ≤ cfg.maxZ ∧ 0 ≤ y0 ∧ y0 < cfg.row ∧ 0 ≤ x0 ∧ x0 < cfg.column
  · rw [if_pos hcz] at hd; cases hd
  · rw [if_neg hcz] at hd; exact h z0 y0 x0 d hd

/-- Grid.setGrid preserves well-formedness of slot ids. -/
theorem setGrid_idPresent (cfg : GridConfig) (st : GridState)
    (tiles : Int → Int → Option TileSetter) (h : IdPresent st) :
    IdPresent (Grid.setGrid cfg st tiles) := by
  unfold Grid.setGrid
  have hgen : ∀ (l : List (Int × Int)) (acc : GridState), IdPresent acc →
      IdPresent (l.foldl
        (fun acc p =>
          if setterIsEmpty (tiles p.1 p.2) then acc
          else Grid.setTile cfg acc p.2 p.1 (setterZ (tiles p.1 p.2)) (tiles p.1 p.2)) acc) := by
    intro l
    induction l with
    | nil => intro acc hacc; exact hacc
    | cons p l ih =>
        intro acc hacc
        rw [List.foldl_cons]
        apply ih
        by_cases hse : setterIsEmpty (tiles p.1 p.2) = true
        · rw [if_pos hse]; exact hacc
        · rw [if_neg hse]; exact setTile_idPresent cfg acc p.2 p.1 _ _ hacc
  exact hgen (cellOrder cfg) (Grid.clearTiles cfg st) (clearTiles_idPresent cfg st h)

/-- Every reachable grid state is well-formed. -/
theorem applyOps_idPresent (cfg : GridConfig) (ops : List GridOp) :
    IdPresent (applyOps cfg emptyGrid ops) := by
  unfold applyOps
  have hgen : ∀ (l : List GridOp) (st : GridState), IdPresent st →
      IdPresent (l.foldl (applyOp cfg) st) := by
    intro l
    induction l with
    | nil => intro st hst; exact hst
    | cons op l ih =>
        intro st hst
        rw [List.foldl_cons]
        apply ih
        cases op with
        | setTile x y z tile => exact setTile_idPresent cfg st x y z tile hst
        | setGrid tiles => exact setGrid_idPresent cfg st tiles hst
  exact hgen ops emptyGrid emptyGrid_idPresent

/-- The per-slot occupancy test of TacticalModeManager.markTopCubes: a tile
is present and its id is not null. -/
def occId (st : GridState) (z y x : Int) : Bool :=
  match st z y x with
  | some d => d.tileId.isSome
  | none => false

/-- The descending scan markTopCubes uses to find the top cube of a column:
walk z = n, n-1, ..., 0 and stop at the first slot holding a tile with a
non-null id; -1 when the column has none. -/
def topZAux (st : GridState) (y x : Int) : Nat → Int
  | 0 => if occId st 0 y x then 0 else -1
  | n + 1 =>
      if occId st (Int.ofNat (n + 1)) y x then Int.ofNat (n + 1)
      else topZAux st y x n

/-- The topZ value markTopCubes computes for column (x, y). -/
def TacticalModeManager.topZ (cfg : GridConfig) (st : GridState) (x y : Int) : Int :=
  topZAux st y x cfg.maxZ.toNat

/-- TacticalModeManager.markTopCubes: for every in-range cell, each present
tile gets isTopCube set to whether its height equals the topZ of its
column; everything else is untouched. -/
def TacticalModeManager.markTopCubes (cfg : GridConfig) (st : GridState) : GridState :=
  fun zz yy xx =>
    if 0 ≤ yy ∧ yy < cfg.row ∧ 0 ≤ xx ∧ xx < cfg.column ∧ 0 ≤ zz ∧ zz ≤ cfg.maxZ then
      match st zz yy xx with
      | some d => some { d with isTopCube := zz == TacticalModeManager.topZ cfg st xx yy }
      | none => none
    else st zz yy xx

/-- Specification of the descending top scan: everything strictly above the
returned height (within the scanned range) fails the occupancy test, the
returned height is at most the top of the scanned range, and the result is
either -1 or a non-negative height passing the occupancy test. -/
theorem topZAux_spec (st : GridState) (y x : Int) : ∀ n : Nat,
    (∀ w : Int, topZAux st y x n < w → w ≤ (n : Int) → occId st w y x = false)
    ∧ topZAux st y x n ≤ (n : Int)
    ∧ (topZAux st y x n = -1
        ∨ (0 ≤ topZAux st y x n ∧ occId st (topZAux st y x n) y x = true)) := by
  intro n
  induction n with
  | zero =>
      by_cases h : occId st 0 y x = true
      · refine ⟨?_, ?_, Or.inr ?_⟩
        · intro w hw1 hw2
          unfold topZAux at hw1
          rw [if_pos h] at hw1
          omega
        · unfold topZAux; rw [if_pos h]; omega
        · unfold topZAux; rw [if_pos h]; exact ⟨le_refl 0, h⟩
      · have hf0 : occId st 0 y x = false := by
          cases hc : occId st 0 y x
          · rfl
          · exact absurd hc h
        refine ⟨?_, ?_, Or.inl ?_⟩
        · intro w hw1 hw2
          unfold topZAux at hw1
          rw [if_neg h] at hw1
          have : w = 0 := by omega
          rw [this]
          exact hf0
        · unfold topZAux; rw [if_neg h]; omega
        · unfold topZAux; rw [if_neg h]
  | succ n ih =>
      obtain ⟨ih1, ih2, ih3⟩ := ih
      by_cases h : occId st (Int.ofNat (n + 1)) y x = true
      · refine ⟨?_, ?_, Or.inr ?_⟩
        · intro w hw1 hw2
          unfold topZAux at hw1
          rw [if_pos h] at hw1
          have : (Int.ofNat (n + 1)) = ((n : Int) + 1) := by simp
          omega
        · unfold topZAux; rw [if_pos h]; simp
        · unfold topZAux; rw [if_pos h]
          have hcast : (Int.ofNat (n + 1)) = ((n : Int) + 1) := by simp
          exact ⟨by omega, h⟩
      · have hf : occId st (Int.ofNat (n + 1)) y x = false := by
          cases hc : occId st (Int.ofNat (n + 1)) y x
          · rfl
          · exact absurd hc h
        have heq : topZAux st y x (n + 1) = topZAux st y x n := by
          show (if occId st (Int.ofNat (n + 1)) y x then Int.ofNat (n + 1)
            else topZAux st y x n) = topZAux st y x n
          rw [if_neg h]
        refine ⟨?_, ?_, ?_⟩
        · intro w hw1 hw2
          rw [heq] at hw1
          by_cases hwn : w ≤ (n : Int)
          · exact ih1 w hw1 hwn
          · have : w = (n : Int) + 1 := by
              push_cast at hw2
              omega
            rw [this]
            have : (Int.ofNat (n + 1)) = ((n : Int) + 1) := by simp
            rw [← this]
            exact hf
        · rw [heq]; push_cast; omega
        · rw [heq]; exact ih3

/-- C2: topmost uniqueness. On any reachable grid state, after the marking
pass of the x-ray overlay (markTopCubes, run by setTacticalMode2(true)), a
tile stored at in-range (x, y, z) has isTopCube = true exactly when no slot
strictly above it in its column is occupied; hence a non-empty column has
exactly one tile marked true, at its highest occupied height, and an empty
column stores no tile at all. -/
theorem C2_topmost_uniqueness (cfg : GridConfig) (ops : List GridOp)
    (x y z : Int) (d : TileData)
    (hx0 : 0 ≤ x) (hx1 : x < cfg.column) (hy0 : 0 ≤ y) (hy1 : y < cfg.row)
    (hz0 : 0 ≤ z) (hz1 : z ≤ cfg.maxZ)
    (hd : TacticalModeManager.markTopCubes cfg (applyOps cfg emptyGrid ops) z y x = some d) :
    d.isTopCube = true
      ↔ ∀ w : Int, z < w → w ≤ cfg.maxZ → applyOps cfg emptyGrid ops w y x = none := by
  set st := applyOps cfg emptyGrid ops with hstdef
  have hwf : IdPresent st := applyOps_idPresent cfg ops
  simp only [TacticalModeManager.markTopCubes] at hd
  rw [if_pos ⟨hy0, hy1, hx0, hx1, hz0, hz1⟩] at hd
  cases hsz : st z y x with
  | none => rw [hsz] at hd; cases hd
  | some d0 =>
      rw [hsz] at hd
      injection hd with hd1
      have hdtop : d.isTopCube = (z == TacticalModeManager.topZ cfg st x y) := by
        rw [← hd1]
      have htz : TacticalModeManager.topZ cfg st x y = topZAux st y x cfg.maxZ.toNat := rfl
      have hocc : occId st z y x = true := by
        unfold occId
        rw [hsz]
        exact hwf z y x d0 hsz
      have hmz0 : (0 : Int) ≤ cfg.maxZ := le_trans hz0 hz1
      have hcast : ((cfg.maxZ.toNat : Nat) : Int) = cfg.maxZ := Int.toNat_of_nonneg hmz0
      obtain ⟨hs1, hs2, hs3⟩ := topZAux_spec st y x cfg.maxZ.toNat
      rw [hdtop, htz]
      constructor
      · intro htrue w hw1 hw2
        have hz_eq : z = topZAux st y x cfg.maxZ.toNat := beq_iff_eq.mp htrue
        have hfw : occId st w y x = false := by
          apply hs1
          · rw [← hz_eq]; exact hw1
          · rw [hcast]; exact hw2
        cases hsw : st w y x with
        | none => rfl
        | some dw =>
            exfalso
            have hds : dw.tileId.isSome = true := hwf w y x dw hsw
            have hfw2 : dw.tileId.isSome = false := by
              unfold occId at hfw
              rw [hsw] at hfw
              exact hfw
            rw [hds] at hfw2
            cases hfw2
      · intro hnone
        have hTz : topZAux st y x cfg.maxZ.toNat = z := by
          rcases hs3 with hneg | ⟨htz0, htzocc⟩
          · exfalso
            have hzf : occId st z y x = false :=
              hs1 z (by rw [hneg]; omega) (by rw [hcast]; exact hz1)
            rw [hzf] at hocc
            cases hocc
          · rcases lt_trichotomy (topZAux st y x cfg.maxZ.toNat) z with hlt | heq2 | hgt
            · exfalso
              have hzf : occId st z y x = false := hs1 z hlt (by rw [hcast]; exact hz1)
              rw [hzf] at hocc
              cases hocc
            · exact heq2
            · exfalso
              have hup : st (topZAux st y x cfg.maxZ.toNat) y x = none :=
                hnone _ hgt (by rw [← hcast]; exact hs2)
              unfold occId at htzocc
              rw [hup] at htzocc
              cases htzocc
        rw [hTz]
        exact beq_self_eq_true z

/-- The single mutation used by the C2 witness: one cube stacked to height 1
at the origin column. -/
def c2ops : List GridOp := [GridOp.setTile 0 0 1 (some (.num 5))]

/-- C2 witness: in that column the tile at height 1 is marked top, and the
marking theorem applied forward shows the slot above it is empty. -/
theorem C2_topmost_uniqueness_witness :
    TacticalModeManager.markTopCubes DEFAULT_CONFIG (applyOps DEFAULT_CONFIG emptyGrid c2ops) 1 0 0
      = some { z := 1, tileId := some 5, tileDirection := none, object := none, isTopCube := true }
    ∧ applyOps DEFAULT_CONFIG emptyGrid c2ops 2 0 0 = none := by
  refine ⟨by decide, ?_⟩
  exact (C2_topmost_uniqueness DEFAULT_CONFIG c2ops 0 0 1
      { z := 1, tileId := some 5, tileDirection := none, object := none, isTopCube := true }
      (by decide) (by decide) (by decide) (by decide) (by decide) (by decide)
      (by decide)).mp (by decide) 2 (by decide) (by decide)

/-- A screen point hits the tile stored at in-range (z, y, x): the slot is
occupied and the backend bounds test (abstracted as the contains oracle,
one fixed query point) succeeds. -/
def Hit (cfg : GridConfig) (st : GridState) (contains : Int → Int → Int → Bool)
    (z y x : Int) : Prop :=
  st z y x ≠ none ∧ contains z y x = true
    ∧ 0 ≤ z ∧ z ≤ cfg.maxZ ∧ 0 ≤ y ∧ y < cfg.row ∧ 0 ≤ x ∧ x < cfg.column

/-- The inner row-major scan of one z level in Grid.getTileByIsoPos: the
first present tile whose bounds contain the query point, if any. -/
def levelHit (cfg : GridConfig) (st : GridState) (contains : Int → Int → Int → Bool)
    (z : Nat) : Option (Int × Int × Int) :=
  match (cellOrder cfg).find?
      (fun p => (st (z : Int) p.1 p.2).isSome && contains (z : Int) p.1 p.2) with
  | some p => some ((z : Int), p.1, p.2)
  | none => none

/-- The outer loop of Grid.getTileByIsoPos: scan levels n, n-1, ..., 0 and
return on the first level with a hit. -/
def pickAux (cfg : GridConfig) (st : GridState) (contains : Int → Int → Int → Bool) :
    Nat → Option (Int × Int × Int)
  | 0 => levelHit cfg st contains 0
  | n + 1 =>
      match levelHit cfg st contains (n + 1) with
      | some r => some r
      | none => pickAux cfg st contains n

/-- Grid.getTileByIsoPos from grid.ts (refactored version): scan z from maxZ
down to 0, row-major within a level, and return the first tile containing
the point (identified by its coordinates); null when nothing is hit. -/
def Grid.getTileByIsoPos (cfg : GridConfig) (st : GridState)
    (contains : Int → Int → Int → Bool) : Option (Int × Int × Int) :=
  pickAux cfg st contains cfg.maxZ.toNat

/-- Membership in the row-major cell order is exactly the in-range test. -/
theorem cellOrder_mem (cfg : GridConfig) (a b : Int) :
    (a, b) ∈ cellOrder cfg
      ↔ 0 ≤ a ∧ a < (cfg.row.toNat : Int) ∧ 0 ≤ b ∧ b < (cfg.column.toNat : Int) := by
  unfold cellOrder
  rw [List.mem_flatMap]
  constructor
  · rintro ⟨y, hy, hmem⟩
    rw [List.mem_range] at hy
    rw [List.mem_map] at hmem
    obtain ⟨x, hx, heq⟩ := hmem
    rw [List.mem_range] at hx
    have h1 : (y : Int) = a := congrArg Prod.fst heq
    have h2 : (x : Int) = b := congrArg Prod.snd heq
    refine ⟨by omega, by omega, by omega, by omega⟩
  · rintro ⟨h1, h2, h3, h4⟩
    refine ⟨a.toNat, ?_, ?_⟩
    · rw [List.mem_range]; omega
    · rw [List.mem_map]
      refine ⟨b.toNat, ?_, ?_⟩
      · rw [List.mem_range]; omega
      · rw [Prod.mk.injEq]
        exact ⟨by simpa using Int.toNat_of_nonneg h1, by simpa using Int.toNat_of_nonneg h3⟩

/-- A successful level scan returns the scanned level with an in-range,
occupied, containing cell. -/
theorem levelHit_eq_some (cfg : GridConfig) (st : GridState)
    (contains : Int → Int → Int → Bool) (z : Nat) (r : Int × Int × Int)
    (h : levelHit cfg st contains z = some r) :
    ∃ y x : Int, r = ((z : Int), y, x) ∧ (y, x) ∈ cellOrder cfg
      ∧ (st (z : Int) y x).isSome = true ∧ contains (z : Int) y x = true := by
  unfold levelHit at h
  cases hf : (cellOrder cfg).find?
      (fun p => (st (z : Int) p.1 p.2).isSome && contains (z : Int) p.1 p.2) with
  | none => rw [hf] at h; cases h
  | some p =>
      rw [hf] at h
      injection h with h1
      have hp := List.find?_some hf
      simp only [Bool.and_eq_true] at hp
      have hmem := List.mem_of_find?_eq_some hf
      exact ⟨p.1, p.2, h1.symm, by rw [Prod.mk.eta]; exact hmem, hp.1, hp.2⟩

/-- An empty level scan means no in-range cell of that level is both
occupied and containing. -/
theorem levelHit_eq_none (cfg : GridConfig) (st : GridState)
    (contains : Int → Int → Int → Bool) (z : Nat)
    (h : levelHit cfg st contains z = none) :
    ∀ p : Int × Int, p ∈ cellOrder cfg →
      ¬ ((st (z : Int) p.1 p.2).isSome = true ∧ contains (z : Int) p.1 p.2 = true) := by
  unfold levelHit at h
  cases hf : (cellOrder cfg).find?
      (fun p => (st (z : Int) p.1 p.2).isSome && contains (z : Int) p.1 p.2) with
  | some p => rw [hf] at h; cases h
  | none =>
      intro p hmem hcontra
      have hnp := List.find?_eq_none.mp hf p hmem
      apply hnp
      simp only [Bool.and_eq_true]
      exact hcontra

/-- Soundness and z-maximality of the descending pick scan: a returned
triple is a hit at a level within the scanned range, and no hit within the
scanned range lies strictly above it. -/
theorem pickAux_sound (cfg : GridConfig) (st : GridState)
    (contains : Int → Int → Int → Bool)
    (hr : 0 ≤ cfg.row) (hc : 0 ≤ cfg.column) (hm : 0 ≤ cfg.maxZ) :
    ∀ n : Nat, (n : Int) ≤ cfg.maxZ →
      ∀ z y x : Int, pickAux cfg st contains n = some (z, y, x) →
        (Hit cfg st contains z y x ∧ z ≤ (n : Int)
          ∧ ∀ z2 y2 x2 : Int, Hit cfg st contains z2 y2 x2 → z2 ≤ (n : Int) → z2 ≤ z) := by
  intro n
  induction n with
  | zero =>
      intro hn z y x hpick
      unfold pickAux at hpick
      obtain ⟨y0, x0, hreq, hmem, hocc, hcont⟩ :=
        levelHit_eq_some cfg st contains 0 (z, y, x) hpick
      obtain ⟨hb1, hb2, hb3, hb4⟩ := (cellOrder_mem cfg y0 x0).mp hmem
      injection hreq with hz hyx
      injection hyx with hy hx
      subst hz hy hx
      have hrow : ((cfg.row.toNat : Nat) : Int) = cfg.row := Int.toNat_of_nonneg hr
      have hcol : ((cfg.column.toNat : Nat) : Int) = cfg.column := Int.toNat_of_nonneg hc
      refine ⟨⟨Option.isSome_iff_ne_none.mp hocc, hcont, by omega, by omega,
        by omega, by omega, by omega, by omega⟩, by omega, ?_⟩
      intro z2 y2 x2 hhit2 hle
      have hz2 : 0 ≤ z2 := hhit2.2.2.1
      omega
  | succ n ih =>
      intro hn z y x hpick
      unfold pickAux at hpick
      cases hlev : levelHit cfg st contains (n + 1) with
      | some r =>
          rw [hlev] at hpick
          injection hpick with hr2
          obtain ⟨y0, x0, hreq, hmem, hocc, hcont⟩ :=
            levelHit_eq_some cfg st contains (n + 1) r hlev
          rw [hr2] at hreq
          obtain ⟨hb1, hb2, hb3, hb4⟩ := (cellOrder_mem cfg y0 x0).mp hmem
          injection hreq with hz hyx
          injection hyx with hy hx
          subst hz hy hx
          have hrow : ((cfg.row.toNat : Nat) : Int) = cfg.row := Int.toNat_of_nonneg hr
          have hcol : ((cfg.column.toNat : Nat) : Int) = cfg.column := Int.toNat_of_nonneg hc
          refine ⟨⟨Option.isSome_iff_ne_none.mp hocc, hcont, by push_cast; omega,
            by push_cast at hn ⊢; omega, by omega, by omega, by omega, by omega⟩,
            le_refl _, ?_⟩
          intro z2 y2 x2 hhit2 hle
          exact hle
      | none =>
          rw [hlev] at hpick
          have hn2 : (n : Int) ≤ cfg.maxZ := by push_cast at hn ⊢; omega
          obtain ⟨hhit, hzn, hmax⟩ := ih hn2 z y x hpick
          refine ⟨hhit, by push_cast; omega, ?_⟩
          intro z2 y2 x2 hhit2 hle
          by_cases hz2n : z2 ≤ (n : Int)
          · exact hmax z2 y2 x2 hhit2 hz2n
          · exfalso
            obtain ⟨ho, hcont2, hz20, hz2m, hy20, hy2r, hx20, hx2c⟩ := hhit2
            have hz2eq : z2 = ((n + 1 : Nat) : Int) := by push_cast at hle ⊢; omega
            apply levelHit_eq_none cfg st contains (n + 1) hlev (y2, x2)
            · rw [cellOrder_mem cfg y2 x2]
              have hrow : ((cfg.row.toNat : Nat) : Int) = cfg.row := Int.toNat_of_nonneg hr
              have hcol : ((cfg.column.toNat : Nat) : Int) = cfg.column := Int.toNat_of_nonneg hc
              refine ⟨by omega, by omega, by omega, by omega⟩
            · constructor
              · rw [← hz2eq]
                exact Option.isSome_iff_ne_none.mpr ho
              · rw [← hz2eq]
                exact hcont2

/-- Completeness of the descending pick scan: a hit within the scanned
range guarantees the scan returns something. -/
theorem pickAux_complete (cfg : GridConfig) (st : GridState)
    (contains : Int → Int → Int → Bool)
    (hr : 0 ≤ cfg.row) (hc : 0 ≤ cfg.column) :
    ∀ n : Nat, ∀ z0 y0 x0 : Int, Hit cfg st contains z0 y0 x0 → z0 ≤ (n : Int) →
      pickAux cfg st contains n ≠ none := by
  have hrow : ((cfg.row.toNat : Nat) : Int) = cfg.row := Int.toNat_of_nonneg hr
  have hcol : ((cfg.column.toNat : Nat) : Int) = cfg.column := Int.toNat_of_nonneg hc
  intro n
  induction n with
  | zero =>
      intro z0 y0 x0 hhit hle hnone
      unfold pickAux at hnone
      obtain ⟨ho, hcont, hz0, hzm, hy0, hyr, hx0, hxc⟩ := hhit
      have hz00 : z0 = ((0 : Nat) : Int) := by push_cast at hle ⊢; omega
      apply levelHit_eq_none cfg st contains 0 hnone (y0, x0)
      · rw [cellOrder_mem cfg y0 x0]
        refine ⟨by omega, by omega, by omega, by omega⟩
      · exact ⟨by rw [← hz00]; exact Option.isSome_iff_ne_none.mpr ho,
          by rw [← hz00]; exact hcont⟩
  | succ n ih =>
      intro z0 y0 x0 hhit hle
      unfold pickAux
      cases hlev : levelHit cfg st contains (n + 1) with
      | some r => simp
      | none =>
          by_cases hz0n : z0 ≤ (n : Int)
          · exact ih z0 y0 x0 hhit hz0n
          · exfalso
            obtain ⟨ho, hcont, hz00, hzm, hy0, hyr, hx0, hxc⟩ := hhit
            have hz0eq : z0 = ((n + 1 : Nat) : Int) := by push_cast at hle ⊢; omega
            apply levelHit_eq_none cfg st contains (n + 1) hlev (y0, x0)
            · rw [cellOrder_mem cfg y0 x0]
              refine ⟨by omega, by omega, by omega, by omega⟩
            · exact ⟨by rw [← hz0eq]; exact Option.isSome_iff_ne_none.mpr ho,
                by rw [← hz0eq]; exact hcont⟩

/-- C3: picking returns the topmost hit. For any hit-test oracle (one fixed
screen point): whenever Grid.getTileByIsoPos returns a tile, that tile is an
occupied, containing, in-range slot and no other hit lies strictly above it
in z; and when the hit is unique, the function returns exactly that tile. -/
theorem C3_picking_topmost (cfg : GridConfig) (st : GridState)
    (contains : Int → Int → Int → Bool)
    (hr : 0 ≤ cfg.row) (hc : 0 ≤ cfg.column) (hm : 0 ≤ cfg.maxZ) :
    (∀ z y x : Int, Grid.getTileByIsoPos cfg st contains = some (z, y, x) →
        Hit cfg st contains z y x
        ∧ ∀ z2 y2 x2 : Int, Hit cfg st contains z2 y2 x2 → z2 ≤ z)
    ∧ (∀ z0 y0 x0 : Int, Hit cfg st contains z0 y0 x0 →
        (∀ z2 y2 x2 : Int, Hit cfg st contains z2 y2 x2 → z2 = z0 ∧ y2 = y0 ∧ x2 = x0) →
        Grid.getTileByIsoPos cfg st contains = some (z0, y0, x0)) := by
  have hcast : ((cfg.maxZ.toNat : Nat) : Int) = cfg.maxZ := Int.toNat_of_nonneg hm
  constructor
  · intro z y x hpick
    unfold Grid.getTileByIsoPos at hpick
    obtain ⟨hhit, hzn, hmax⟩ := pickAux_sound cfg st contains hr hc hm cfg.maxZ.toNat
      (by rw [hcast]) z y x hpick
    refine ⟨hhit, ?_⟩
    intro z2 y2 x2 hhit2
    exact hmax z2 y2 x2 hhit2 (by rw [hcast]; exact hhit2.2.2.2.1)
  · intro z0 y0 x0 hhit huniq
    have hne := pickAux_complete cfg st contains hr hc cfg.maxZ.toNat z0 y0 x0 hhit
      (by rw [hcast]; exact hhit.2.2.2.1)
    unfold Grid.getTileByIsoPos
    cases hp : pickAux cfg st contains cfg.maxZ.toNat with
    | none => exact absurd hp hne
    | some r =>
        obtain ⟨rz, ry, rx⟩ := r
        obtain ⟨hhitr, _, _⟩ := pickAux_sound cfg st contains hr hc hm cfg.maxZ.toNat
          (by rw [hcast]) rz ry rx hp
        obtain ⟨he1, he2, he3⟩ := huniq rz ry rx hhitr
        rw [he1, he2, he3]

/-- The state for the C3 witness: a single cube at the origin. -/
def c3st : GridState := Grid.setTile DEFAULT_CONFIG emptyGrid 0 0 0 (some (.num 5))

/-- The hit oracle for the C3 witness: the point is inside every bounds. -/
def allContains : Int → Int → Int → Bool := fun _ _ _ => true

/-- C3 witness: on the single-cube state the picker returns that cube, and
the soundness part of the picking theorem applies to it. -/
theorem C3_picking_topmost_witness :
    Grid.getTileByIsoPos DEFAULT_CONFIG c3st allContains = some (0, 0, 0)
    ∧ Hit DEFAULT_CONFIG c3st allContains 0 0 0 := by
  refine ⟨by decide, ?_⟩
  exact ((C3_picking_topmost DEFAULT_CONFIG c3st allContains
    (by decide) (by decide) (by decide)).1 0 0 0 (by decide)).1

end IsoEngine
